import Mathlib

/-!
Shallow embedding of the int-titan arbitrary-precision integer engine
(src/integer.h) and verification of its specification claims.

The C++ class `int_titan::integer` stores a little-endian
`immer::vector<uint32_t>` of base-2^32 digits plus a sign flag.  Here a
digit is a `Nat` that callers keep below `2 ^ 32`; every arithmetic step
of the source that can wrap a `uint32_t` is modelled with an explicit
`% (max_digit + 1)`.
-/

namespace int_titan

/-- The arbitrary-length integer type of integer.h: a little-endian list of
base-2^32 digits together with a sign flag. -/
structure integer where
  digits : List Nat
  is_negative : Bool
deriving DecidableEq, Repr

/-- Largest value of a 32-bit digit, mirroring `integer::max_digit`. -/
def max_digit : Nat := 2 ^ 32 - 1

/-- Factory from raw digits and sign, mirroring
`integer::create(digits, is_negative)` (no normalization is performed). -/
def create (digits : List Nat) (is_negative : Bool) : integer :=
  { digits := digits, is_negative := is_negative }

/-- Sign flip, mirroring `integer::negate`. -/
def negate (x : integer) : integer :=
  { x with is_negative := !x.is_negative }

/-- Digit access with virtual leading zeros, mirroring `integer::get_digit`:
the digit at `index` if present, else 0. -/
def get_digit (x : integer) (i : Nat) : Nat :=
  x.digits.getD i 0

/-- Additive inverse of a nonzero digit, mirroring `integer::inverse_digit`:
`max_digit + 1 - d` (the source computes it in 64-bit width, so no wrap). -/
def inverse_digit (d : Nat) : Nat :=
  max_digit + 1 - d

/-- Most-significant-first digit scan of `integer::is_less_than`: the source
loop `for i = n-1 down to 0` returns at the first index whose digits differ. -/
def is_less_than_loop (x y : integer) : Nat → Bool
  | 0 => false
  | n + 1 =>
    if get_digit x n ≠ get_digit y n then decide (get_digit x n < get_digit y n)
    else is_less_than_loop x y n

/-- Magnitude comparison, mirroring `integer::is_less_than`: shorter digit
sequence is smaller, equal lengths are scanned from the most significant
digit down; the sign flags are ignored entirely. -/
def is_less_than (x y : integer) : Bool :=
  if x.digits.length ≠ y.digits.length then
    decide (x.digits.length < y.digits.length)
  else
    is_less_than_loop x y x.digits.length

theorem is_less_than_loop_asymm (x y : integer) :
    ∀ n, is_less_than_loop x y n = true → is_less_than_loop y x n = false := by
  intro n
  induction n with
  | zero => intro h; simp [is_less_than_loop] at h
  | succ n ih =>
    intro h
    simp only [is_less_than_loop] at h ⊢
    by_cases hd : get_digit x n = get_digit y n
    · rw [if_neg (not_not_intro hd)] at h
      rw [if_neg (not_not_intro hd.symm)]
      exact ih h
    · rw [if_pos hd] at h
      rw [if_pos (Ne.symm hd)]
      simp only [decide_eq_true_eq] at h
      simp only [decide_eq_false_iff_not]
      omega

theorem is_less_than_asymm (x y : integer) (h : is_less_than x y = true) :
    is_less_than y x = false := by
  unfold is_less_than at h ⊢
  by_cases hl : x.digits.length = y.digits.length
  · rw [if_neg (not_not_intro hl)] at h
    rw [if_neg (not_not_intro hl.symm), ← hl]
    exact is_less_than_loop_asymm x y _ h
  · rw [if_pos hl] at h
    rw [if_pos (Ne.symm hl)]
    simp only [decide_eq_true_eq] at h
    simp only [decide_eq_false_iff_not]
    omega

theorem is_less_than_loop_both_false (x y : integer) :
    ∀ n, is_less_than_loop x y n = false → is_less_than_loop y x n = false →
      ∀ i, i < n → get_digit x i = get_digit y i := by
  intro n
  induction n with
  | zero => intro _ _ i hi; omega
  | succ n ih =>
    intro h1 h2 i hi
    simp only [is_less_than_loop] at h1 h2
    by_cases hd : get_digit x n = get_digit y n
    · rw [if_neg (not_not_intro hd)] at h1
      rw [if_neg (not_not_intro hd.symm)] at h2
      rcases Nat.lt_succ_iff_lt_or_eq.mp hi with hlt | heq
      · exact ih h1 h2 i hlt
      · rw [heq]; exact hd
    · rw [if_pos hd] at h1
      rw [if_pos (Ne.symm hd)] at h2
      simp only [decide_eq_false_iff_not] at h1 h2
      omega

theorem is_less_than_loop_of_digits_eq (x y : integer) (h : x.digits = y.digits) :
    ∀ n, is_less_than_loop x y n = false := by
  intro n
  induction n with
  | zero => simp [is_less_than_loop]
  | succ n ih =>
    simp only [is_less_than_loop]
    have hd : get_digit x n = get_digit y n := by simp [get_digit, h]
    rw [if_neg (not_not_intro hd)]
    exact ih

theorem is_less_than_of_digits_eq (x y : integer) (h : x.digits = y.digits) :
    is_less_than x y = false := by
  unfold is_less_than
  rw [if_neg (not_not_intro (by rw [h]))]
  exact is_less_than_loop_of_digits_eq x y h _

theorem digits_eq_of_both_not_lt (x y : integer)
    (h1 : is_less_than x y = false) (h2 : is_less_than y x = false) :
    x.digits = y.digits := by
  unfold is_less_than at h1 h2
  by_cases hl : x.digits.length = y.digits.length
  · rw [if_neg (not_not_intro hl)] at h1
    rw [if_neg (not_not_intro hl.symm), ← hl] at h2
    apply List.ext_getElem hl
    intro i hi1 hi2
    have hg := is_less_than_loop_both_false x y x.digits.length h1 h2 i hi1
    simpa [get_digit, List.getD_eq_getElem?_getD, List.getElem?_eq_getElem, hi1, hi2]
      using hg
  · rw [if_pos hl] at h1
    rw [if_pos (Ne.symm hl)] at h2
    simp only [decide_eq_false_iff_not] at h1 h2
    exfalso
    omega

/-- Digit loop of `integer::add` for two non-negative operands.  The source
runs `i` from 0 to `max(len x, len y) - 1`; here `n` counts the remaining
iterations.  `sum` is computed in wrapping `uint32_t` arithmetic, modelled by
`% (max_digit + 1)`; the source detects carry-out exactly by `sum < x[i]`,
and appends a final digit 1 when the loop ends with the carry set. -/
def add_loop (x y : integer) : Nat → Nat → Nat → List Nat
  | _, 0, carry => if carry = 1 then [1] else []
  | i, n + 1, carry =>
    let sum := (get_digit x i + get_digit y i + carry) % (max_digit + 1)
    let carry2 := if sum < get_digit x i then 1 else 0
    sum :: add_loop x y (i + 1) n carry2

/-- Digit loop of `integer::subtract` for two non-negative operands.  The
source computes `get_digit(x,i) - borrow` in `uint32_t`, which wraps when
`x[i] = 0` and `borrow = 1`; that wrap is modelled by
`(x[i] + (max_digit + 1) - borrow) % (max_digit + 1)`. -/
def subtract_loop (x y : integer) : Nat → Nat → Nat → List Nat
  | _, 0, _ => []
  | i, n + 1, borrow =>
    let xb := (get_digit x i + (max_digit + 1) - borrow) % (max_digit + 1)
    if get_digit y i ≤ xb then
      (xb - get_digit y i) :: subtract_loop x y (i + 1) n 0
    else
      inverse_digit (get_digit y i - xb) :: subtract_loop x y (i + 1) n 1

/-- Trailing (most-significant) zero stripping, mirroring the source's
`while (!result.empty() and result[result.size() - 1] == 0) result.take(...)`
loops in `integer::subtract` and `integer::digits_from_pow2_base`. -/
def strip_zeros (l : List Nat) : List Nat :=
  (l.reverse.dropWhile (fun d => d == 0)).reverse

/-- Number of negative operands, the sign part of the termination measure for
the mutual recursion of `integer::add` and `integer::subtract`. -/
def sign_weight (x : integer) : Nat :=
  if x.is_negative then 1 else 0

/-- Termination measure for `add`. -/
def add_measure (x y : integer) : Nat :=
  4 * (sign_weight x + sign_weight y) + 2

/-- Termination measure for `subtract`. -/
def subtract_measure (x y : integer) : Nat :=
  4 * (sign_weight x + sign_weight y) + (if is_less_than x y then 1 else 0)

mutual

/-- Mirror of `integer::add`: sign case analysis, then the digit-wise
carry loop for two non-negative operands (no trailing-zero stripping). -/
def add (x y : integer) : integer :=
  if h1 : x.is_negative = true ∧ y.is_negative = true then
    negate (add (negate x) (negate y))
  else if h2 : x.is_negative = true ∧ y.is_negative = false then
    subtract y (negate x)
  else if h3 : x.is_negative = false ∧ y.is_negative = true then
    subtract x (negate y)
  else
    create (add_loop x y 0 (max x.digits.length y.digits.length) 0) false
termination_by add_measure x y
decreasing_by
  all_goals
    simp [add_measure, subtract_measure, sign_weight, negate, *] <;> (try split) <;>
      (try split) <;> omega

/-- Mirror of `integer::subtract`: ordering flip when `is_less_than x y`,
then sign case analysis, then the digit-wise borrow loop followed by
trailing-zero stripping. -/
def subtract (x y : integer) : integer :=
  if hlt : is_less_than x y = true then
    negate (subtract y x)
  else if h1 : x.is_negative = true ∧ y.is_negative = true then
    negate (subtract (negate y) (negate x))
  else if h2 : x.is_negative = true ∧ y.is_negative = false then
    negate (add (negate x) y)
  else if h3 : x.is_negative = false ∧ y.is_negative = true then
    add x (negate y)
  else
    create (strip_zeros (subtract_loop x y 0 (max x.digits.length y.digits.length) 0)) false
termination_by subtract_measure x y
decreasing_by
  all_goals first
  | (simp [subtract_measure, add_measure, sign_weight, negate,
      is_less_than_asymm x y hlt, *] <;> (try split) <;> (try split) <;> omega)
  | (simp [subtract_measure, add_measure, sign_weight, negate, *] <;> (try split) <;>
      (try split) <;> omega)

end

theorem add_both_nonneg (x y : integer)
    (hx : x.is_negative = false) (hy : y.is_negative = false) :
    add x y = create (add_loop x y 0 (max x.digits.length y.digits.length) 0) false := by
  conv_lhs => unfold add
  simp [hx, hy]

theorem add_both_neg (x y : integer)
    (hx : x.is_negative = true) (hy : y.is_negative = true) :
    add x y = negate (add (negate x) (negate y)) := by
  conv_lhs => unfold add
  simp [hx, hy]

theorem add_neg_nonneg (x y : integer)
    (hx : x.is_negative = true) (hy : y.is_negative = false) :
    add x y = subtract y (negate x) := by
  conv_lhs => unfold add
  simp [hx, hy]

theorem add_nonneg_neg (x y : integer)
    (hx : x.is_negative = false) (hy : y.is_negative = true) :
    add x y = subtract x (negate y) := by
  conv_lhs => unfold add
  simp [hx, hy]

theorem subtract_flip (x y : integer) (hlt : is_less_than x y = true) :
    subtract x y = negate (subtract y x) := by
  conv_lhs => unfold subtract
  simp [hlt]

theorem subtract_both_neg (x y : integer) (hlt : is_less_than x y = false)
    (hx : x.is_negative = true) (hy : y.is_negative = true) :
    subtract x y = negate (subtract (negate y) (negate x)) := by
  conv_lhs => unfold subtract
  simp [hlt, hx, hy]

theorem subtract_neg_nonneg (x y : integer) (hlt : is_less_than x y = false)
    (hx : x.is_negative = true) (hy : y.is_negative = false) :
    subtract x y = negate (add (negate x) y) := by
  conv_lhs => unfold subtract
  simp [hlt, hx, hy]

theorem subtract_nonneg_neg (x y : integer) (hlt : is_less_than x y = false)
    (hx : x.is_negative = false) (hy : y.is_negative = true) :
    subtract x y = add x (negate y) := by
  conv_lhs => unfold subtract
  simp [hlt, hx, hy]

theorem subtract_both_nonneg (x y : integer) (hlt : is_less_than x y = false)
    (hx : x.is_negative = false) (hy : y.is_negative = false) :
    subtract x y =
      create (strip_zeros (subtract_loop x y 0 (max x.digits.length y.digits.length) 0))
        false := by
  conv_lhs => unfold subtract
  simp [hlt, hx, hy]

/-- Value of a little-endian base-2^32 digit sequence. -/
def digits_value : List Nat → Nat
  | [] => 0
  | d :: rest => d + (max_digit + 1) * digits_value rest

/-- Mathematical value represented by an integer: `(-1 if negative)` times the
value of its little-endian base-2^32 digit sequence. -/
def value (x : integer) : Int :=
  if x.is_negative then -(digits_value x.digits : Int) else (digits_value x.digits : Int)

/-- Equality of integers as the spec states it for the algebraic claims:
agreement of the sign flags and of the normalized digit sequences. -/
def eqv (x y : integer) : Prop :=
  x.is_negative = y.is_negative ∧ strip_zeros x.digits = strip_zeros y.digits

instance (x y : integer) : Decidable (eqv x y) := by
  unfold eqv
  infer_instance

/-- Halving loop of `integer::is_pow2` (`while (x > 1) { if odd fail; x /= 2 }`).
The loop halves its argument each iteration, so running it with `fuel = x`
never exhausts the fuel; the fuel only makes the recursion structural. -/
def is_pow2_loop : Nat → Nat → Bool
  | 0, _ => false
  | fuel + 1, x =>
    if x = 0 then false
    else if x = 1 then true
    else if x % 2 = 1 then false
    else is_pow2_loop fuel (x / 2)

/-- Mirror of `integer::is_pow2`. -/
def is_pow2 (x : Nat) : Bool :=
  is_pow2_loop (x + 1) x

/-- Halving loop of `integer::log2_pow2` (`while (x /= 2) count++`), with the
same structural-fuel device as `is_pow2_loop`. -/
def log2_pow2_loop : Nat → Nat → Nat
  | 0, _ => 0
  | fuel + 1, x => if x ≤ 1 then 0 else log2_pow2_loop fuel (x / 2) + 1

/-- Mirror of `integer::log2_pow2`: the number of halvings until the argument
reaches 0, i.e. `log2` on powers of two. -/
def log2_pow2 (x : Nat) : Nat :=
  log2_pow2_loop (x + 1) x

/-- ASCII lower-casing as `std::tolower` behaves on the digit alphabet,
used by `integer::get_digit_character_value`. -/
def to_lower (c : Char) : Char :=
  if 'A' ≤ c ∧ c ≤ 'Z' then Char.ofNat (c.toNat + 32) else c

/-- Mirror of `integer::get_digit_character_value`: numeric value of a digit
character, `0`-`9` then `a`-`z` (case-insensitive). -/
def get_digit_character_value (c : Char) : Nat :=
  let d := to_lower c
  if '0' ≤ d ∧ d ≤ '9' then d.toNat - '0'.toNat
  else 10 + d.toNat - 'a'.toNat

/-- Mirror of `integer::get_digit_character`: character for a digit value,
`0`-`9` then the alphabet in the requested case. -/
def get_digit_character (value : Nat) (uppercase : Bool) : Char :=
  if value < 10 then Char.ofNat ('0'.toNat + value)
  else
    let a := if uppercase then 'A' else 'a'
    Char.ofNat (a.toNat + value - 10)

/-- Bit-streaming loop of `integer::digits_from_pow2_base`.  The source runs
`counter` from 0 to `str.size() * bit_count - 1`; `fuel` counts the remaining
iterations, so the call with `fuel = str.length * bit_count` and `counter = 0`
is exactly the source loop.  Note the source reads `str[counter / bit_count]`,
i.e. it starts from the FIRST character of the string. -/
def dfp_loop (str : List Char) (bit_count : Nat) :
    Nat → Nat → Nat → List Nat → List Nat
  | _, 0, current_digit, acc =>
    if current_digit ≠ 0 then acc ++ [current_digit] else acc
  | counter, fuel + 1, current_digit, acc =>
    let char_value := get_digit_character_value (str.getD (counter / bit_count) '0')
    let is_set : Bool := (char_value &&& (1 <<< (counter % bit_count))) != 0
    let cur := current_digit ||| ((if is_set then 1 else 0) <<< (counter % 32))
    if (counter + 1) % 32 = 0 then
      dfp_loop str bit_count (counter + 1) fuel 0 (acc ++ [cur])
    else
      dfp_loop str bit_count (counter + 1) fuel cur acc

/-- Mirror of `integer::digits_from_pow2_base`: stream the bits of the
character values into 32-bit digits, then strip most-significant zeros. -/
def digits_from_pow2_base (str : List Char) (base : Nat) : List Nat :=
  let bit_count := log2_pow2 base
  strip_zeros (dfp_loop str bit_count 0 (str.length * bit_count) 0 [])

/-- Loop state of `integer::string_from_pow2_base`: the bit counter, the
partially assembled output character value, the leading-zero-suppression
flag, and the emitted characters. -/
structure sfp_state where
  counter : Nat
  current_bits : Nat
  has_char : Bool
  out : List Char
deriving DecidableEq, Repr

/-- One bit step of `integer::string_from_pow2_base`: place the bit inside the
current `bit_count`-wide output group, and emit a character when the group
completes (suppressing leading zero characters). -/
def sfp_bit (bit_count : Nat) (uppercase : Bool) (d : Nat) (st : sfp_state)
    (bit : Nat) : sfp_state :=
  let is_set : Bool := (d &&& (1 <<< bit)) != 0
  let cb := st.current_bits |||
    ((if is_set then 1 else 0) <<< (bit_count - 1 - st.counter % bit_count))
  let c2 := (st.counter + 1) % bit_count
  if c2 = 0 then
    if st.has_char || cb != 0 then
      { counter := c2, current_bits := 0, has_char := true,
        out := st.out ++ [get_digit_character cb uppercase] }
    else
      { counter := c2, current_bits := cb, has_char := st.has_char, out := st.out }
  else
    { counter := c2, current_bits := cb, has_char := st.has_char, out := st.out }

/-- Mirror of `integer::string_from_pow2_base`: an optional sign character,
then the digits walked from most significant to least significant, each digit
streamed bit 31 down to bit 0 through `sfp_bit`.  The initial counter is
`(digits.size() * 32) % bit_count`, the source's misalignment correction. -/
def string_from_pow2_base (x : integer) (base : Nat) (uppercase : Bool) :
    List Char :=
  let bit_count := log2_pow2 base
  let sign : List Char := if x.is_negative then ['-'] else []
  let init : sfp_state :=
    { counter := x.digits.length * 32 % bit_count, current_bits := 0,
      has_char := false, out := [] }
  let final := x.digits.reverse.foldl
    (fun st d => ((List.range 32).reverse).foldl (sfp_bit bit_count uppercase d) st)
    init
  sign ++ final.out

/-- Mirror of `integer::to_string` for the supported power-of-two bases (the
base checks are modelled in `create_from_text`, which shares them). -/
def to_string (x : integer) (base : Nat) (uppercase : Bool := true) : List Char :=
  string_from_pow2_base x base uppercase

/-- Error taxonomy of spec section 7 for the text factory: the source guards
`integer::create(str, base)` with `assert(is_pow2(base))` followed by
`assert(base > 1 and base <= 36)`, and the spec names those failures
`UnsupportedBase` and `InvalidBaseRange` respectively. -/
inductive error_kind where
  | UnsupportedBase
  | InvalidBaseRange
  | InvalidCharacter
deriving DecidableEq, Repr

/-- Sign stripping of `integer::create(str, base)`: an optional leading
`+` or `-` is removed and `-` sets the sign flag. -/
def strip_sign : List Char → Bool × List Char
  | [] => (false, [])
  | c :: rest =>
    if c = '-' ∨ c = '+' then (c == '-', rest) else (false, c :: rest)

/-- Mirror of `integer::create(str, base)`, with the two assertions promoted
to the spec's error kinds in the order the source checks them: first
`assert(is_pow2(base))` (UnsupportedBase), then
`assert(base > 1 and base <= 36)` (InvalidBaseRange); on success the
magnitude is parsed by `digits_from_pow2_base`. -/
def create_from_text (str : List Char) (base : Nat) :
    Except error_kind integer :=
  let p := strip_sign str
  if is_pow2 base = false then Except.error error_kind.UnsupportedBase
  else if ¬ (1 < base ∧ base ≤ 36) then Except.error error_kind.InvalidBaseRange
  else Except.ok (create (digits_from_pow2_base p.2 base) p.1)

deriving instance DecidableEq for Except

/-! Concrete evaluations shared by several claims. -/

theorem add_carry_dropped_eval :
    add (create [4294967295] false) (create [1, 4294967295] false) =
      create [0, 0] false := by
  rw [add_both_nonneg _ _ rfl rfl]
  decide

theorem add_carry_dropped_eval_comm :
    add (create [1, 4294967295] false) (create [4294967295] false) =
      create [0, 0, 1] false := by
  rw [add_both_nonneg _ _ rfl rfl]
  decide

theorem subtract_three_five_eval :
    subtract (create [3] false) (create [5] false) = create [2] true := by
  rw [subtract_flip _ _ (by decide),
    subtract_both_nonneg _ _ (by decide) rfl rfl]
  decide

theorem subtract_neg_five_neg_three_eval :
    subtract (create [5] true) (create [3] true) = create [2] false := by
  rw [subtract_both_neg _ _ (by decide) rfl rfl]
  have e3 : negate (create [3] true) = create [3] false := rfl
  have e5 : negate (create [5] true) = create [5] false := rfl
  rw [e3, e5, subtract_three_five_eval]
  decide

/-- Claim C1 (refuted by the code): `add` does not always return the exact
mathematical sum.  With carry-in 1 and `y[i] = 2^32 - 1` the wrapped sum
equals `x[i]`, so the source's carry rule `sum < x[i]` misses the carry-out:
`(2^32 - 1) + (2^64 - 2^32 + 1)` yields digits `[0, 0]` (value 0) instead of
`2^64`. -/
theorem C1_add_not_exact :
    add (create [4294967295] false) (create [1, 4294967295] false) =
      create [0, 0] false ∧
    value (add (create [4294967295] false) (create [1, 4294967295] false)) ≠
      value (create [4294967295] false) + value (create [1, 4294967295] false) := by
  refine ⟨add_carry_dropped_eval, ?_⟩
  rw [add_carry_dropped_eval]
  decide

/-- Claim C2 (refuted by the code): `subtract` is not exact.  On two negative
operands the source returns `negate(subtract(-y, -x))` — one negation more
than its own comment `-x - (-y) = y - x` — so `(-5) - (-3)` evaluates to `+2`
while the spec's reduction `subtract(-y, -x)` gives the correct `-2`. -/
theorem C2_subtract_not_exact :
    value (create [5] true) - value (create [3] true) = -2 ∧
    subtract (create [5] true) (create [3] true) = create [2] false ∧
    value (subtract (create [5] true) (create [3] true)) = 2 ∧
    subtract (negate (create [3] true)) (negate (create [5] true)) =
      create [2] true := by
  refine ⟨by decide, subtract_neg_five_neg_three_eval, ?_, ?_⟩
  · rw [subtract_neg_five_neg_three_eval]
    decide
  · have e3 : negate (create [3] true) = create [3] false := rfl
    have e5 : negate (create [5] true) = create [5] false := rfl
    rw [e3, e5, subtract_three_five_eval]

/-- Claim C3 (refuted by the code): `subtract(x, y)` and `add(x, negate(y))`
disagree at `x = -5, y = -3`: the former returns `+2` (extra negation in the
both-negative branch of `subtract`), the latter `-2`. -/
theorem C3_subtract_add_negate_mismatch :
    subtract (create [5] true) (create [3] true) = create [2] false ∧
    add (create [5] true) (negate (create [3] true)) = create [2] true ∧
    ¬ eqv (create [2] false) (create [2] true) := by
  refine ⟨subtract_neg_five_neg_three_eval, ?_, by decide⟩
  rw [add_neg_nonneg _ _ rfl rfl]
  have e3 : negate (create [3] true) = create [3] false := rfl
  have e5 : negate (create [5] true) = create [5] false := rfl
  rw [e3, e5, subtract_three_five_eval]

/-- Claim C4 (refuted by the code): `add` is not commutative, because the
carry rule `sum < x[i]` reads only the first operand's digit.  At
`x = [2^32-1], y = [1, 2^32-1]` the code returns digits `[0, 0]` one way and
`[0, 0, 1]` the other, which differ even after normalization. -/
theorem C4_add_not_commutative :
    add (create [4294967295] false) (create [1, 4294967295] false) =
      create [0, 0] false ∧
    add (create [1, 4294967295] false) (create [4294967295] false) =
      create [0, 0, 1] false ∧
    ¬ eqv (create [0, 0] false) (create [0, 0, 1] false) := by
  exact ⟨add_carry_dropped_eval, add_carry_dropped_eval_comm, by decide⟩

/-- Claim C5 (refuted by the code): `add` can produce a non-normalized
result from normalized non-negative inputs: the dropped carry of the
`sum < x[i]` rule leaves `[0, 0]`, a nonempty digit sequence whose
most-significant digit is zero (`add` performs no stripping). -/
theorem C5_add_result_not_normalized :
    strip_zeros (create [4294967295] false).digits =
      (create [4294967295] false).digits ∧
    strip_zeros (create [1, 4294967295] false).digits =
      (create [1, 4294967295] false).digits ∧
    (add (create [4294967295] false) (create [1, 4294967295] false)).digits =
      [0, 0] ∧
    ([0, 0] : List Nat) ≠ [] ∧
    ([0, 0] : List Nat).getLast? = some 0 := by
  refine ⟨by decide, by decide, ?_, by decide, by decide⟩
  rw [add_carry_dropped_eval]
  rfl

set_option maxRecDepth 10000 in
/-- Claim C6 (refuted by the code): the text round trip fails for every base,
already at the value 2.  `to_string` emits most-significant character first
(`"10"` for 2 in base 2), but `digits_from_pow2_base` streams the bits of
`str[0]` into the least-significant bit positions, so parsing `"10"` in base
2 yields 1, not 2. -/
theorem C6_round_trip_fails :
    to_string (create [2] false) 2 true = ['1', '0'] ∧
    create_from_text ['1', '0'] 2 = Except.ok (create [1] false) ∧
    ¬ eqv (create [1] false) (create [2] false) := by
  exact ⟨by decide, by decide, by decide⟩

/-- Claim C7, counterexample: `fromText("ZZ", 37)` does not fail with
`InvalidBaseRange`: the source's first assertion is `assert(is_pow2(base))`,
and 37 is not a power of two. -/
theorem C7_counterexample :
    create_from_text ['Z', 'Z'] 37 ≠ Except.error error_kind.InvalidBaseRange := by
  decide

/-- Claim C7, amended: `fromText("ZZ", 37)` fails with `UnsupportedBase`,
because the power-of-two assertion precedes the base-range assertion in
`integer::create(str, base)`. -/
theorem C7_amended_unsupported_base :
    create_from_text ['Z', 'Z'] 37 = Except.error error_kind.UnsupportedBase := by
  decide

/-- Claim C8 (confirmed): for non-negative integers exactly one of
`isLessThan(x, y)`, `isLessThan(y, x)`, digit-sequence equality holds. -/
theorem C8_comparison_trichotomy (x y : integer)
    (_hx : x.is_negative = false) (_hy : y.is_negative = false) :
    (is_less_than x y = true ∧ is_less_than y x = false ∧ x.digits ≠ y.digits) ∨
    (is_less_than x y = false ∧ is_less_than y x = true ∧ x.digits ≠ y.digits) ∨
    (is_less_than x y = false ∧ is_less_than y x = false ∧ x.digits = y.digits) := by
  cases h1 : is_less_than x y with
  | true =>
    left
    refine ⟨rfl, is_less_than_asymm x y h1, ?_⟩
    intro hdig
    rw [is_less_than_of_digits_eq x y hdig] at h1
    simp at h1
  | false =>
    cases h2 : is_less_than y x with
    | true =>
      right; left
      refine ⟨rfl, rfl, ?_⟩
      intro hdig
      rw [is_less_than_of_digits_eq y x hdig.symm] at h2
      simp at h2
    | false =>
      right; right
      exact ⟨rfl, rfl, digits_eq_of_both_not_lt x y h1 h2⟩

/-- Witness for C8 at `x = [1], y = [2]`. -/
theorem C8_comparison_trichotomy_witness :
    (is_less_than (create [1] false) (create [2] false) = true ∧
      is_less_than (create [2] false) (create [1] false) = false ∧
      (create [1] false).digits ≠ (create [2] false).digits) ∨
    (is_less_than (create [1] false) (create [2] false) = false ∧
      is_less_than (create [2] false) (create [1] false) = true ∧
      (create [1] false).digits ≠ (create [2] false).digits) ∨
    (is_less_than (create [1] false) (create [2] false) = false ∧
      is_less_than (create [2] false) (create [1] false) = false ∧
      (create [1] false).digits = (create [2] false).digits) :=
  C8_comparison_trichotomy (create [1] false) (create [2] false) rfl rfl

/-- Claim C9 (confirmed): on an empty digit sequence `to_string` emits no
digit characters for any supported base: the empty string for a non-negative
sign, and exactly the character `-` for a negative sign, with no check that
the magnitude is nonzero. -/
theorem C9_to_string_empty_magnitude (base : Nat) (x : integer)
    (_hbase : base = 2 ∨ base = 4 ∨ base = 8 ∨ base = 16 ∨ base = 32)
    (hx : x.digits = []) :
    to_string x base true = if x.is_negative then ['-'] else [] := by
  obtain ⟨ds, neg⟩ := x
  simp only at hx
  subst hx
  simp [to_string, string_from_pow2_base]

/-- Witness for C9 at base 2 and negative zero. -/
theorem C9_to_string_empty_magnitude_witness :
    to_string (create [] true) 2 true =
      if (create [] true).is_negative then ['-'] else [] :=
  C9_to_string_empty_magnitude 2 (create [] true) (Or.inl rfl) rfl

/-- Claim C10 (confirmed): for every supported base, parsing the empty
string or a lone sign character succeeds with an empty digit sequence, and
the lone `-` yields a negative zero. -/
theorem C10_sign_only_strings (base : Nat)
    (hbase : base = 2 ∨ base = 4 ∨ base = 8 ∨ base = 16 ∨ base = 32) :
    create_from_text [] base = Except.ok (create [] false) ∧
    create_from_text ['+'] base = Except.ok (create [] false) ∧
    create_from_text ['-'] base = Except.ok (create [] true) := by
  rcases hbase with h | h | h | h | h <;> subst h <;>
    exact ⟨by decide, by decide, by decide⟩

/-- Witness for C10 at base 2. -/
theorem C10_sign_only_strings_witness :
    create_from_text [] 2 = Except.ok (create [] false) ∧
    create_from_text ['+'] 2 = Except.ok (create [] false) ∧
    create_from_text ['-'] 2 = Except.ok (create [] true) :=
  C10_sign_only_strings 2 (Or.inl rfl)

end int_titan
